import Mathlib

set_option autoImplicit false

namespace AsmOs

/-!
Shallow embedding of the cooperative task scheduler and the interrupt-to-task
event bridge of the asm-os kernel (`src/kernel/keyboard.rs`,
`src/kernel/task.rs`, `src/kernel/task/executor.rs`).

Scancodes and task identifiers are modelled as `Nat`; the bounded queues of the
source (`crossbeam_queue::ArrayQueue`) are modelled as lists with an explicit
capacity check, front at the head.
-/

/-- Capacity of the scancode waiting queue (`SCANCODE_QUEUE_CAPACITY` in
`kernel/keyboard.rs`). -/
def SCANCODE_QUEUE_CAPACITY : Nat := 128

/-- Size of the executor's waiting queue for tasks (`QUEUE_SIZE` in
`kernel/task/executor.rs`). -/
def QUEUE_SIZE : Nat := 128

/-- Modelled from the spec: the Bounded Event Queue is
`crossbeam_queue::ArrayQueue`, a dependency whose code is not part of this
repository.  Per spec sections 3 and 4.1 it is a fixed-capacity FIFO ring
buffer whose `push` returns an error when the queue is full and otherwise
appends the element at the back. -/
def queuePush (cap : Nat) (q : List Nat) (x : Nat) : Option (List Nat) :=
  if q.length < cap then some (q ++ [x]) else none

/-- Modelled from the spec: `ArrayQueue::pop` removes and returns the front
element, failing on an empty queue. -/
def queuePop : List Nat → Option (Nat × List Nat)
  | [] => none
  | x :: r => some (x, r)

/-- Modelled from the spec: `futures_util::task::AtomicWaker::register`
(the Wake Signal, spec section 4.2; a dependency, not repository code) stores
the given wake handle, replacing any previously stored one.  A handle is
identified by the task identifier its `WakerWrapper` carries. -/
def awRegister (w : Nat) (_slot : Option Nat) : Option Nat := some w

/-- Modelled from the spec: `AtomicWaker::wake` invokes the currently stored
handle, if any, then clears the slot.  Returns the list of handles invoked
together with the new contents of the slot. -/
def awWake : Option Nat → List Nat × Option Nat
  | some w => ([w], none)
  | none => ([], none)

/-- Modelled from the spec: `AtomicWaker::take` removes and returns the
stored handle, leaving the slot empty. -/
def awTake (slot : Option Nat) : Option Nat × Option Nat := (slot, none)

/-- Combined shared state of the keyboard event bridge: the scancode queue
cell (`SCANCODE_QUEUE`; `none` while uninitialized), the `WAKER` slot, and the
executor's ready queue (`task_queue`) that a registered `WakerWrapper` pushes
into when invoked. -/
structure SysState where
  cell : Option (List Nat)
  wakerSlot : Option Nat
  readyQueue : List Nat
deriving DecidableEq, Repr

/-- `WAKER.wake()` as it behaves in the running system: take the stored handle
and invoke it; invoking the `WakerWrapper` of task `tid` pushes `tid` into the
executor's ready queue and panics (modelled as `none`) if that queue is full
(`WakerWrapper::wake_task` in `kernel/task/executor.rs`). -/
def wakeSignal (s : SysState) : Option SysState :=
  match awWake s.wakerSlot with
  | ([], slot2) => some { s with wakerSlot := slot2 }
  | (tid :: _, slot2) =>
    match queuePush QUEUE_SIZE s.readyQueue tid with
    | some q => some { s with wakerSlot := slot2, readyQueue := q }
    | none => none

/-- Observable outcome of one `add_scancode` call: the new shared state,
whether `WAKER.wake()` was invoked, and whether a diagnostic warning was
logged. -/
structure AddOutcome where
  state : SysState
  wakeCalled : Bool
  warned : Bool
deriving DecidableEq, Repr

/-- `add_scancode` from `kernel/keyboard.rs`: if the scancode queue is
initialized, try to push the scancode; on success invoke `WAKER.wake()`,
otherwise log a warning and drop the scancode; if the queue is uninitialized,
log a warning.  The result is `none` only if the wake itself panics (full
ready queue inside `WakerWrapper::wake_task`). -/
def add_scancode (c : Nat) (s : SysState) : Option AddOutcome :=
  match s.cell with
  | none => some ⟨s, false, true⟩
  | some items =>
    match queuePush SCANCODE_QUEUE_CAPACITY items c with
    | some items2 =>
      match wakeSignal { s with cell := some items2 } with
      | some s2 => some ⟨s2, true, false⟩
      | none => none
    | none => some ⟨s, false, true⟩

/-- Result type of `Stream::poll_next` (`Poll<Option<u8>>` in the source). -/
inductive Poll (α : Type) where
  | ready (a : α)
  | pending
deriving DecidableEq, Repr

/-- Program points of `ScancodeStream::poll_next`, one per atomic operation on
the shared state: `start` is about to do the first `queue.pop()`, `regPoint`
is about to run `WAKER.register`, `recheck` is about to do the second
`queue.pop()`, and `takePoint c` is about to run `WAKER.take()` after the
second pop yielded scancode `c`. -/
inductive PollPC where
  | start
  | regPoint
  | recheck
  | takePoint (c : Nat)
  | done (r : Poll (Option Nat))
deriving DecidableEq, Repr

/-- One atomic step of `ScancodeStream::poll_next` (`kernel/keyboard.rs`) for
the consumer task `tid`.  `none` models the `expect` panic on an uninitialized
scancode queue; there is no step from `done`. -/
def poll_next_step (tid : Nat) (pc : PollPC) (s : SysState) :
    Option (PollPC × SysState) :=
  match pc with
  | .start =>
    match s.cell with
    | none => none
    | some items =>
      match queuePop items with
      | some (c, rest) => some (.done (.ready (some c)), { s with cell := some rest })
      | none => some (.regPoint, s)
  | .regPoint => some (.recheck, { s with wakerSlot := awRegister tid s.wakerSlot })
  | .recheck =>
    match s.cell with
    | none => none
    | some items =>
      match queuePop items with
      | some (c, rest) => some (.takePoint c, { s with cell := some rest })
      | none => some (.done .pending, s)
  | .takePoint c =>
    some (.done (.ready (some c)), { s with wakerSlot := (awTake s.wakerSlot).2 })
  | .done _ => none

/-- Run `poll_next` to completion with no interrupt interference (at most four
atomic steps are ever taken). -/
def runPoll (tid : Nat) : Nat → PollPC → SysState → PollPC × SysState
  | 0, pc, s => (pc, s)
  | fuel + 1, pc, s =>
    match poll_next_step tid pc s with
    | none => (pc, s)
    | some (pc2, s2) => runPoll tid fuel pc2 s2

/-- A whole uninterrupted `ScancodeStream::poll_next` call by task `tid`. -/
def poll_next (tid : Nat) (s : SysState) : PollPC × SysState :=
  runPoll tid 4 .start s

/-- `n` successive pops through the Event Stream: repeatedly run `poll_next`,
collecting the scancodes it yields, stopping early if a poll does not yield
one. -/
def streamDrain (tid : Nat) : Nat → SysState → List Nat
  | 0, _ => []
  | n + 1, s =>
    match poll_next tid s with
    | (.done (.ready (some c)), s2) => c :: streamDrain tid n s2
    | _ => []

/-- Pushing a whole list of scancodes through `add_scancode`, left to right. -/
def pushSeq (s : SysState) : List Nat → Option SysState
  | [] => some s
  | c :: cs =>
    match add_scancode c s with
    | some o => pushSeq o.state cs
    | none => none

/-- Interleaved execution of one `poll_next` call by task `tid` against one
keyboard interrupt delivering scancode `c`.  The interrupt's `add_scancode` is
split into its two shared-state operations, the queue push and `WAKER.wake()`,
which run atomically with respect to the consumer.  `pushAt` (resp. `wakeAt`)
counts how many consumer steps run before the push (resp. the wake) fires;
counters that have not expired when the consumer finishes fire afterwards, in
program order (push before wake, and no wake if the push failed).  `none`
models a panic in any of the interleaved operations. -/
def irun (c tid : Nat) :
    Nat → Option Nat → Option Nat → PollPC → SysState →
    Option (PollPC × SysState)
  | 0, _, _, pc, s => some (pc, s)
  | fuel + 1, pushAt, wakeAt, pc, s =>
    if pushAt = some 0 then
      match s.cell with
      | none => irun c tid fuel none none pc s
      | some items =>
        match queuePush SCANCODE_QUEUE_CAPACITY items c with
        | some items2 => irun c tid fuel none wakeAt pc { s with cell := some items2 }
        | none => irun c tid fuel none none pc s
    else if wakeAt = some 0 then
      match wakeSignal s with
      | some s2 => irun c tid fuel pushAt none pc s2
      | none => none
    else
      match poll_next_step tid pc s with
      | none =>
        match pc with
        | .done r =>
          match pushAt with
          | some _ =>
            match s.cell with
            | none => some (.done r, s)
            | some items =>
              match queuePush SCANCODE_QUEUE_CAPACITY items c with
              | some items2 =>
                match wakeAt with
                | some _ =>
                  match wakeSignal { s with cell := some items2 } with
                  | some s2 => some (.done r, s2)
                  | none => none
                | none => some (.done r, { s with cell := some items2 })
              | none => some (.done r, s)
          | none =>
            match wakeAt with
            | some _ =>
              match wakeSignal s with
              | some s2 => some (.done r, s2)
              | none => none
            | none => some (.done r, s)
        | _ => none
      | some (pc2, s2) =>
        irun c tid fuel (pushAt.map Nat.pred) (wakeAt.map Nat.pred) pc2 s2

/-- Initial state for the lost-wakeup race: the scancode queue is initialized
and empty, no handle is registered, and the ready queue holds `rq`. -/
def raceInit (rq : List Nat) : SysState := ⟨some [], none, rq⟩

/-- The race between one `poll_next` call by task `tid` and one interrupt
delivering scancode `c`, with the interrupt's push after `i` consumer steps and
its wake after `j` consumer steps.  Eight iterations always suffice: the
consumer takes at most four steps and the producer fires at most twice. -/
def pollRace (i j c tid : Nat) (rq : List Nat) : Option (PollPC × SysState) :=
  irun c tid 8 (some i) (some j) .start (raceInit rq)

/-!  Executor model (`kernel/task.rs`, `kernel/task/executor.rs`). -/

/-- A `Task` owns one resumable computation (`Pin<Box<dyn Future>>` in the
source).  The concrete future is opaque in the source; it is abstracted here by
the number of times it still returns `Pending` before completing
(`pendingPolls`), plus the ghost observation `suspended`: `true` exactly when
the most recent resume returned `Pending` (the task returned from `poll`
without completing and now awaits a wake). -/
structure Task where
  id : Nat
  pendingPolls : Nat
  suspended : Bool
deriving DecidableEq, Repr

/-- `Task::new`: a freshly created task with identifier `i`; it has never been
resumed, so it is not suspended. -/
def Task.new (i behaviour : Nat) : Task := ⟨i, behaviour, false⟩

/-- Result of polling a task's future (`Poll<()>` in the source). -/
inductive TPoll where
  | ready
  | pending
deriving DecidableEq, Repr

/-- `Task::poll`: resume the task's future once.  The abstracted future
returns `Pending` while its script is non-empty, then `Ready`. -/
def Task.poll (t : Task) : TPoll × Task :=
  match t.pendingPolls with
  | 0 => (.ready, t)
  | n + 1 => (.pending, { t with pendingPolls := n, suspended := true })

/-- Remove every binding for key `k` from an association-list map
(`BTreeMap::remove`). -/
def eraseKey (k : Nat) (m : List (Nat × Task)) : List (Nat × Task) :=
  m.filter (fun p => !(p.1 == k))

/-- Look up the binding for key `k` (`BTreeMap::get`). -/
def lookupKey (k : Nat) : List (Nat × Task) → Option Task
  | [] => none
  | p :: rest => if p.1 = k then some p.2 else lookupKey k rest

/-- Insert or replace the binding for key `k` (`BTreeMap::insert`). -/
def insertKey (k : Nat) (v : Task) (m : List (Nat × Task)) : List (Nat × Task) :=
  (k, v) :: eraseKey k m

/-- Remove a task identifier from the waker cache (`BTreeMap::remove`; the
cached `Waker` for an identifier is always the `WakerWrapper` built from that
identifier and the shared ready queue, so the cache is represented by its key
set). -/
def cacheErase (k : Nat) (cache : List Nat) : List Nat :=
  cache.filter (fun x => !(x == k))

/-- `waker_cache.entry(task_id).or_insert_with(...)`: keep an existing entry,
otherwise create the `WakerWrapper` entry for this identifier. -/
def cacheEnter (k : Nat) (cache : List Nat) : List Nat :=
  if k ∈ cache then cache else cache ++ [k]

/-- The `Executor`: the owning task map, the ready queue of task identifiers,
and the waker cache (`kernel/task/executor.rs`). -/
structure Executor where
  tasks : List (Nat × Task)
  task_queue : List Nat
  waker_cache : List Nat
deriving DecidableEq, Repr

/-- `Executor::new`. -/
def Executor.new : Executor := ⟨[], [], []⟩

/-- The two `panic!`/`expect` failures of `Executor::spawn`. -/
inductive SpawnFailure where
  | duplicateID
  | queueFull
deriving DecidableEq, Repr

/-- `Executor::spawn`: insert the task into the map keyed by its identifier,
panicking if a binding already existed (`tasks.insert` returned `Some`), then
push the identifier into the ready queue, panicking if that queue is full. -/
def Executor.spawn (e : Executor) (t : Task) : Except SpawnFailure Executor :=
  match lookupKey t.id e.tasks with
  | some _ => .error .duplicateID
  | none =>
    match queuePush QUEUE_SIZE e.task_queue t.id with
    | some q2 =>
      .ok { tasks := insertKey t.id t e.tasks, task_queue := q2,
            waker_cache := e.waker_cache }
    | none => .error .queueFull

/-- The loop body of `Executor::run_ready_tasks`, recursing over the popped
ready-queue contents: look the identifier up in the task map (silently skip it
if absent), obtain or lazily create the cached waker entry, poll the task; on
`Ready` remove it from both the task map and the waker cache, on `Pending`
store the updated task back. -/
def runReadyAux : List Nat → List (Nat × Task) → List Nat →
    List (Nat × Task) × List Nat
  | [], tasks, cache => (tasks, cache)
  | tid :: rest, tasks, cache =>
    match lookupKey tid tasks with
    | none => runReadyAux rest tasks cache
    | some t =>
      let cache2 := cacheEnter tid cache
      match t.poll with
      | (.ready, _) => runReadyAux rest (eraseKey tid tasks) (cacheErase tid cache2)
      | (.pending, t2) => runReadyAux rest (insertKey tid t2 tasks) cache2

/-- `Executor::run_ready_tasks`: drain the ready queue, processing each popped
identifier with `runReadyAux`. -/
def Executor.run_ready_tasks (e : Executor) : Executor :=
  { tasks := (runReadyAux e.task_queue e.tasks e.waker_cache).1,
    task_queue := [],
    waker_cache := (runReadyAux e.task_queue e.tasks e.waker_cache).2 }

/-- The interrupt-visible CPU operations performed by
`Executor::sleep_if_idle`. -/
inductive CpuOp where
  | disableInterrupts
  | enableInterrupts
  | enableAndHlt
deriving DecidableEq, Repr

/-- `Executor::sleep_if_idle`: disable interrupts, then test the ready queue;
if it is empty, re-enable interrupts and halt in one indivisible operation
(`enable_and_hlt`), otherwise just re-enable interrupts.  Modelled as the
trace of CPU operations performed. -/
def Executor.sleep_if_idle (e : Executor) : List CpuOp :=
  CpuOp.disableInterrupts ::
    (if e.task_queue.isEmpty then [CpuOp.enableAndHlt] else [CpuOp.enableInterrupts])

/-- The Wake Handle cache invariant of spec section 3: an identifier has an
entry in the waker cache exactly when the task it names is live in the task
map and is currently suspended (its most recent resume returned `Pending`
without completing). -/
def cacheInv (tasks : List (Nat × Task)) (cache : List Nat) : Prop :=
  ∀ tid, tid ∈ cache ↔ ∃ t, lookupKey tid tasks = some t ∧ t.suspended = true

example : Executor.new.spawn (Task.new 0 2) =
    .ok ⟨[(0, Task.new 0 2)], [0], []⟩ := rfl
example :
    (Executor.run_ready_tasks ⟨[(0, ⟨0, 1, false⟩)], [0], []⟩) =
      ⟨[(0, ⟨0, 0, true⟩)], [], [0]⟩ := by decide
example :
    (Executor.run_ready_tasks ⟨[(0, ⟨0, 0, true⟩)], [0, 0], [0]⟩) =
      ⟨[], [], []⟩ := by decide

example : queuePush 2 [5] 7 = some [5, 7] := by decide
example : pollRace 3 3 30 7 [] =
    some (.done .pending, ⟨some [30], none, [7]⟩) := by decide
example : pollRace 0 0 30 7 [] =
    some (.done (.ready (some 30)), ⟨some [], none, []⟩) := by decide
example : pollRace 2 2 30 7 [] =
    some (.done (.ready (some 30)), ⟨some [], none, [7]⟩) := by decide
example : pollRace 1 1 30 7 [] =
    some (.done (.ready (some 30)), ⟨some [], none, []⟩) := by decide
example : pollRace 2 9 30 7 [] =
    some (.done (.ready (some 30)), ⟨some [], none, []⟩) := by decide
example : pollRace 2 3 30 7 [] =
    some (.done (.ready (some 30)), ⟨some [], none, [7]⟩) := by decide
example : pollRace 5 9 30 7 [] =
    some (.done .pending, ⟨some [30], none, [7]⟩) := by decide
example : poll_next 0 ⟨some [9, 4], none, []⟩ =
    (.done (.ready (some 9)), ⟨some [4], none, []⟩) := by decide
example : poll_next 3 ⟨some [], none, []⟩ =
    (.done .pending, ⟨some [], some 3, []⟩) := by decide
example : streamDrain 0 2 ⟨some [9, 4], none, []⟩ = [9, 4] := by decide

/-!  Helper lemmas. -/

lemma lookupKey_eraseKey_self (k : Nat) (m : List (Nat × Task)) :
    lookupKey k (eraseKey k m) = none := by
  induction m with
  | nil => rfl
  | cons p rest ih =>
    by_cases h : p.1 = k
    · simpa [eraseKey, List.filter_cons, h] using ih
    · simpa [eraseKey, List.filter_cons, h, lookupKey] using ih

lemma lookupKey_eraseKey_ne {k k2 : Nat} (m : List (Nat × Task)) (h : k2 ≠ k) :
    lookupKey k2 (eraseKey k m) = lookupKey k2 m := by
  induction m with
  | nil => rfl
  | cons p rest ih =>
    by_cases hp : p.1 = k
    · have hk : ¬ k = k2 := fun he => h he.symm
      simp [eraseKey, List.filter_cons, hp, lookupKey, hk] at ih ⊢
      exact ih
    · simp [eraseKey, List.filter_cons, hp, lookupKey] at ih ⊢
      by_cases hp2 : p.1 = k2 <;> simp [hp2, ih]

lemma lookupKey_insertKey_self (k : Nat) (v : Task) (m : List (Nat × Task)) :
    lookupKey k (insertKey k v m) = some v := by
  simp [insertKey, lookupKey]

lemma lookupKey_insertKey_ne {k k2 : Nat} (v : Task) (m : List (Nat × Task))
    (h : k2 ≠ k) : lookupKey k2 (insertKey k v m) = lookupKey k2 m := by
  have : ¬ k = k2 := by omega
  simp [insertKey, lookupKey, this, lookupKey_eraseKey_ne m h]

lemma mem_cacheErase {x k : Nat} {cache : List Nat} :
    x ∈ cacheErase k cache ↔ x ∈ cache ∧ x ≠ k := by
  simp [cacheErase, List.mem_filter]

lemma mem_cacheEnter {x k : Nat} {cache : List Nat} :
    x ∈ cacheEnter k cache ↔ x ∈ cache ∨ x = k := by
  by_cases h : k ∈ cache
  · simp only [cacheEnter, if_pos h]
    constructor
    · exact Or.inl
    · rintro (hx | rfl)
      · exact hx
      · exact h
  · simp [cacheEnter, if_neg h]

lemma streamDrain_cell (tid : Nat) (items : List Nat) (w : Option Nat)
    (rq : List Nat) :
    streamDrain tid items.length ⟨some items, w, rq⟩ = items := by
  induction items with
  | nil => rfl
  | cons c rest ih =>
    simpa [streamDrain, poll_next, runPoll, poll_next_step, queuePop] using ih

lemma pushSeq_app (cs : List Nat) : ∀ q rq : List Nat,
    q.length + cs.length ≤ SCANCODE_QUEUE_CAPACITY →
    pushSeq ⟨some q, none, rq⟩ cs = some ⟨some (q ++ cs), none, rq⟩ := by
  induction cs with
  | nil => intro q rq h; simp [pushSeq]
  | cons c cs ih =>
    intro q rq h
    have hq : q.length < SCANCODE_QUEUE_CAPACITY := by
      simp [SCANCODE_QUEUE_CAPACITY] at h ⊢
      omega
    have hlen : (q ++ [c]).length + cs.length ≤ SCANCODE_QUEUE_CAPACITY := by
      simp [SCANCODE_QUEUE_CAPACITY] at h ⊢
      omega
    simp only [pushSeq, add_scancode, queuePush, if_pos hq, wakeSignal, awWake]
    rw [ih (q ++ [c]) rq hlen]
    simp

/-!  Claim theorems. -/

/-- Claim C1: `ScancodeStream::poll_next` pops and returns the front event
immediately when the queue is non-empty; otherwise it registers the caller's
wake handle with the Wake Signal and pops a second time: if that second pop
yields an event it clears the registration (`WAKER.take`) and returns the
event, and if the queue is still empty it reports `Pending` (leaving the
registration in place). -/
theorem poll_next_behaviour (tid c : Nat) (rest : List Nat) (s : SysState) :
    (s.cell = some (c :: rest) →
      poll_next_step tid .start s
        = some (.done (.ready (some c)), { s with cell := some rest })) ∧
    (s.cell = some [] →
      poll_next_step tid .start s = some (.regPoint, s)) ∧
    (poll_next_step tid .regPoint s
        = some (.recheck, { s with wakerSlot := some tid })) ∧
    (s.cell = some (c :: rest) →
      poll_next_step tid .recheck s
        = some (.takePoint c, { s with cell := some rest })) ∧
    (poll_next_step tid (.takePoint c) s
        = some (.done (.ready (some c)), { s with wakerSlot := none })) ∧
    (s.cell = some [] →
      poll_next_step tid .recheck s = some (.done .pending, s)) := by
  refine ⟨fun h => ?_, fun h => ?_, ?_, fun h => ?_, ?_, fun h => ?_⟩
  · simp [poll_next_step, h, queuePop]
  · simp [poll_next_step, h, queuePop]
  · simp [poll_next_step, awRegister]
  · simp [poll_next_step, h, queuePop]
  · simp [poll_next_step, awTake]
  · simp [poll_next_step, h, queuePop]

/-- Witness for C1 at concrete states. -/
theorem poll_next_behaviour_w :
    poll_next_step 1 .start ⟨some [5, 6], some 9, []⟩
      = some (.done (.ready (some 5)), ⟨some [6], some 9, []⟩) ∧
    poll_next_step 1 .recheck ⟨some [], some 1, [4]⟩
      = some (.done .pending, ⟨some [], some 1, [4]⟩) :=
  ⟨(poll_next_behaviour 1 5 [6] ⟨some [5, 6], some 9, []⟩).1 rfl,
   (poll_next_behaviour 1 5 [6] ⟨some [], some 1, [4]⟩).2.2.2.2.2 rfl⟩

/-- Claim C3: `Executor::sleep_if_idle` first disables interrupts, then tests
the ready queue; it halts (with the atomic enable-and-halt operation) only if
the queue was empty at that test, and otherwise merely re-enables interrupts —
so the CPU is never halted while an identifier sits in the ready queue at the
moment of the check. -/
theorem sleep_if_idle_behaviour (e : Executor) :
    (Executor.sleep_if_idle e).head? = some CpuOp.disableInterrupts ∧
    (e.task_queue = [] →
      Executor.sleep_if_idle e
        = [CpuOp.disableInterrupts, CpuOp.enableAndHlt]) ∧
    (e.task_queue ≠ [] →
      Executor.sleep_if_idle e
        = [CpuOp.disableInterrupts, CpuOp.enableInterrupts]) ∧
    (CpuOp.enableAndHlt ∈ Executor.sleep_if_idle e → e.task_queue = []) := by
  cases h : e.task_queue <;> simp [Executor.sleep_if_idle, h]

/-- Witness for C3: an executor with an empty and with a non-empty ready
queue. -/
theorem sleep_if_idle_behaviour_w :
    Executor.sleep_if_idle ⟨[], [], []⟩
      = [CpuOp.disableInterrupts, CpuOp.enableAndHlt] ∧
    Executor.sleep_if_idle ⟨[], [3], []⟩
      = [CpuOp.disableInterrupts, CpuOp.enableInterrupts] :=
  ⟨(sleep_if_idle_behaviour ⟨[], [], []⟩).2.1 rfl,
   (sleep_if_idle_behaviour ⟨[], [3], []⟩).2.2.1 (by decide)⟩

/-- Claim C4: `Executor::spawn` panics with a duplicate-identifier error if a
task with the same identifier is already in the map, panics with a
queue-full error if the ready queue is full, and otherwise inserts the task
into the map keyed by its identifier and appends the identifier to the ready
queue, so the freshly spawned task is in the map and its identifier is in the
ready queue (the Queued state). -/
theorem spawn_behaviour (e : Executor) (t : Task) (u : Task) :
    (lookupKey t.id e.tasks = some u → e.spawn t = .error .duplicateID) ∧
    (lookupKey t.id e.tasks = none → ¬ e.task_queue.length < QUEUE_SIZE →
      e.spawn t = .error .queueFull) ∧
    (lookupKey t.id e.tasks = none → e.task_queue.length < QUEUE_SIZE →
      e.spawn t = .ok { tasks := insertKey t.id t e.tasks,
                        task_queue := e.task_queue ++ [t.id],
                        waker_cache := e.waker_cache } ∧
      lookupKey t.id (insertKey t.id t e.tasks) = some t ∧
      t.id ∈ e.task_queue ++ [t.id]) := by
  refine ⟨fun h => ?_, fun h hq => ?_, fun h hq => ?_⟩
  · simp [Executor.spawn, h]
  · simp [Executor.spawn, h, queuePush, hq]
  · exact ⟨by simp [Executor.spawn, h, queuePush, hq],
      lookupKey_insertKey_self t.id t e.tasks, by simp⟩

/-- Witness for C4: a fresh spawn succeeds, a duplicate spawn panics. -/
theorem spawn_behaviour_w :
    Executor.spawn ⟨[], [], []⟩ (Task.new 3 1)
      = .ok ⟨[(3, Task.new 3 1)], [3], []⟩ ∧
    Executor.spawn ⟨[(3, Task.new 3 1)], [3], []⟩ (Task.new 3 0)
      = .error .duplicateID :=
  ⟨((spawn_behaviour ⟨[], [], []⟩ (Task.new 3 1) (Task.new 3 1)).2.2 rfl
      (by decide)).1,
   (spawn_behaviour ⟨[(3, Task.new 3 1)], [3], []⟩ (Task.new 3 0)
      (Task.new 3 1)).1 rfl⟩

/-- Claim C6: Wake Signal semantics (modelled from the spec, the Wake Signal
being `futures_util::task::AtomicWaker`, external to the repository):
`register` stores the handle, replacing any previous one; `notify` invokes the
currently stored handle if one exists and then clears the slot; hence after
`register h1; register h2`, a `notify` invokes only `h2`, and a second
`notify` with no intervening registration invokes nothing. -/
theorem wake_signal_behaviour (h1 h2 w : Nat) (slot : Option Nat) :
    awRegister w slot = some w ∧
    awWake (some w) = ([w], none) ∧
    awWake none = ([], none) ∧
    awWake (awRegister h2 (awRegister h1 slot)) = ([h2], none) ∧
    awWake (awWake (awRegister h2 (awRegister h1 slot))).2 = ([], none) := by
  simp [awRegister, awWake]

/-- Claim C7: pushing into a full scancode queue of capacity 128 leaves the
queue contents unchanged, drops the event with a diagnostic warning and no
wake, and the subsequent 128 pops through the Event Stream still yield exactly
the retained events in their original order. -/
theorem full_queue_overflow (c tid : Nat) (items rq : List Nat)
    (w : Option Nat) (hfull : items.length = SCANCODE_QUEUE_CAPACITY) :
    add_scancode c ⟨some items, w, rq⟩ = some ⟨⟨some items, w, rq⟩, false, true⟩ ∧
    streamDrain tid SCANCODE_QUEUE_CAPACITY ⟨some items, w, rq⟩ = items := by
  constructor
  · have : ¬ items.length < SCANCODE_QUEUE_CAPACITY := by omega
    simp [add_scancode, queuePush, this]
  · rw [← hfull]
    exact streamDrain_cell tid items w rq

/-- Witness for C7 on a concrete full queue. -/
theorem full_queue_overflow_w :
    add_scancode 7 ⟨some (List.range 128), none, []⟩
        = some ⟨⟨some (List.range 128), none, []⟩, false, true⟩ ∧
    streamDrain 0 SCANCODE_QUEUE_CAPACITY ⟨some (List.range 128), none, []⟩
        = List.range 128 :=
  full_queue_overflow 7 0 (List.range 128) [] none (by simp [SCANCODE_QUEUE_CAPACITY])

/-- Claim C8: FIFO delivery — pushing events `P1 … Pn` through `add_scancode`
into the initially empty scancode queue without overflow, and then popping `n`
times through the Event Stream, returns exactly `P1 … Pn` in that order. -/
theorem fifo_delivery (tid : Nat) (ps : List Nat)
    (hn : ps.length ≤ SCANCODE_QUEUE_CAPACITY) :
    pushSeq ⟨some [], none, []⟩ ps = some ⟨some ps, none, []⟩ ∧
    streamDrain tid ps.length ⟨some ps, none, []⟩ = ps := by
  constructor
  · simpa using pushSeq_app ps [] [] (by simpa using hn)
  · exact streamDrain_cell tid ps none []

/-- Witness for C8 at a concrete push sequence. -/
theorem fifo_delivery_w :
    pushSeq ⟨some [], none, []⟩ [10, 20, 30] = some ⟨some [10, 20, 30], none, []⟩ ∧
    streamDrain 0 3 ⟨some [10, 20, 30], none, []⟩ = [10, 20, 30] :=
  fifo_delivery 0 [10, 20, 30] (by decide)

/-- Claim C10: `add_scancode` invokes `WAKER.wake()` exactly when the push
into the scancode queue succeeds: with an uninitialized queue it only logs a
warning and returns normally; with a full queue it only logs a warning and
returns normally; with room in the queue it appends the scancode and calls
the wake (which re-enqueues a registered task, given room in the ready
queue). -/
theorem add_scancode_wake_iff (c w : Nat) (items : List Nat) (s : SysState) :
    (s.cell = none → add_scancode c s = some ⟨s, false, true⟩) ∧
    (s.cell = some items → ¬ items.length < SCANCODE_QUEUE_CAPACITY →
      add_scancode c s = some ⟨s, false, true⟩) ∧
    (s.cell = some items → items.length < SCANCODE_QUEUE_CAPACITY →
      s.wakerSlot = none →
      add_scancode c s
        = some ⟨⟨some (items ++ [c]), none, s.readyQueue⟩, true, false⟩) ∧
    (s.cell = some items → items.length < SCANCODE_QUEUE_CAPACITY →
      s.wakerSlot = some w → s.readyQueue.length < QUEUE_SIZE →
      add_scancode c s
        = some ⟨⟨some (items ++ [c]), none, s.readyQueue ++ [w]⟩, true, false⟩) := by
  refine ⟨fun h => ?_, fun h hfull => ?_, fun h hroom hslot => ?_,
    fun h hroom hslot hready => ?_⟩
  · simp [add_scancode, h]
  · simp [add_scancode, h, queuePush, hfull]
  · simp [add_scancode, h, queuePush, hroom, wakeSignal, awWake, hslot]
  · simp [add_scancode, h, queuePush, hroom, wakeSignal, awWake, hslot, hready]

/-- Witness for C10: uninitialized, full, and successful-push cases. -/
theorem add_scancode_wake_iff_w :
    add_scancode 9 ⟨none, none, []⟩ = some ⟨⟨none, none, []⟩, false, true⟩ ∧
    add_scancode 9 ⟨some [], some 2, [5]⟩
      = some ⟨⟨some [9], none, [5, 2]⟩, true, false⟩ :=
  ⟨(add_scancode_wake_iff 9 2 [] ⟨none, none, []⟩).1 rfl,
   (add_scancode_wake_iff 9 2 [] ⟨some [], some 2, [5]⟩).2.2.2 rfl
     (by decide) rfl (by decide)⟩

lemma poll_pending_suspended {u u2 : Task} (hp : u.poll = (.pending, u2)) :
    u2.suspended = true := by
  rcases hu : u.pendingPolls with _ | n
  · simp [Task.poll, hu] at hp
  · simp [Task.poll, hu] at hp
    rw [← hp]

lemma poll_zero_ready {u : Task} (h0 : u.pendingPolls = 0) :
    u.poll = (.ready, u) := by
  simp [Task.poll, h0]

lemma runReadyAux_absent (tid : Nat) : ∀ (q : List Nat)
    (tasks : List (Nat × Task)) (cache : List Nat),
    lookupKey tid tasks = none → tid ∉ cache →
    lookupKey tid (runReadyAux q tasks cache).1 = none ∧
    tid ∉ (runReadyAux q tasks cache).2 := by
  intro q
  induction q with
  | nil =>
    intro tasks cache h1 h2
    simpa [runReadyAux] using ⟨h1, h2⟩
  | cons a q ih =>
    intro tasks cache h1 h2
    cases hl : lookupKey a tasks with
    | none => simpa [runReadyAux, hl] using ih tasks cache h1 h2
    | some u =>
      have hne : tid ≠ a := by
        rintro rfl
        rw [h1] at hl
        exact Option.noConfusion hl
      rcases hp : u.poll with ⟨pr, u2⟩
      cases pr with
      | ready =>
        have h1b : lookupKey tid (eraseKey a tasks) = none := by
          rw [lookupKey_eraseKey_ne _ hne]
          exact h1
        have h2b : tid ∉ cacheErase a (cacheEnter a cache) := by
          rw [mem_cacheErase]
          rintro ⟨hmem, -⟩
          rw [mem_cacheEnter] at hmem
          rcases hmem with hmem | heq
          · exact h2 hmem
          · exact hne heq
        simpa [runReadyAux, hl, hp] using ih _ _ h1b h2b
      | pending =>
        have h1b : lookupKey tid (insertKey a u2 tasks) = none := by
          rw [lookupKey_insertKey_ne _ _ hne]
          exact h1
        have h2b : tid ∉ cacheEnter a cache := by
          rw [mem_cacheEnter]
          rintro (hmem | heq)
          · exact h2 hmem
          · exact hne heq
        simpa [runReadyAux, hl, hp] using ih _ _ h1b h2b

lemma runReadyAux_cacheInv : ∀ (q : List Nat)
    (tasks : List (Nat × Task)) (cache : List Nat),
    cacheInv tasks cache →
    cacheInv (runReadyAux q tasks cache).1 (runReadyAux q tasks cache).2 := by
  intro q
  induction q with
  | nil =>
    intro tasks cache h
    simpa [runReadyAux] using h
  | cons a q ih =>
    intro tasks cache h
    cases hl : lookupKey a tasks with
    | none => simpa [runReadyAux, hl] using ih tasks cache h
    | some u =>
      rcases hp : u.poll with ⟨pr, u2⟩
      cases pr with
      | ready =>
        have hnew : cacheInv (eraseKey a tasks) (cacheErase a (cacheEnter a cache)) := by
          intro tid
          by_cases hta : tid = a
          · subst hta
            simp [mem_cacheErase, lookupKey_eraseKey_self]
          · rw [mem_cacheErase, mem_cacheEnter, lookupKey_eraseKey_ne _ hta]
            constructor
            · rintro ⟨hmem | heq, -⟩
              · exact (h tid).mp hmem
              · exact absurd heq hta
            · intro hx
              exact ⟨Or.inl ((h tid).mpr hx), hta⟩
        simpa [runReadyAux, hl, hp] using ih _ _ hnew
      | pending =>
        have hsusp : u2.suspended = true := poll_pending_suspended hp
        have hnew : cacheInv (insertKey a u2 tasks) (cacheEnter a cache) := by
          intro tid
          by_cases hta : tid = a
          · subst hta
            rw [mem_cacheEnter]
            simp [lookupKey_insertKey_self, hsusp]
          · rw [mem_cacheEnter, lookupKey_insertKey_ne _ _ hta]
            constructor
            · rintro (hmem | heq)
              · exact (h tid).mp hmem
              · exact absurd heq hta
            · intro hx
              exact Or.inl ((h tid).mpr hx)
        simpa [runReadyAux, hl, hp] using ih _ _ hnew

/-- Claim C5: when a polled task completes (`Poll::Ready`),
`run_ready_tasks` removes its identifier from both the task map and the waker
cache in that same iteration; a popped identifier that is absent from the task
map is silently skipped with no state change; and once absent, the identifier
stays absent from the task map and the waker cache throughout the rest of the
drain — duplicate or stale wakes are no-ops, with no panic and no
resurrection. -/
theorem run_ready_idempotent_completion (tid : Nat) (rest q : List Nat)
    (tasks : List (Nat × Task)) (cache : List Nat) (t : Task) :
    (lookupKey tid tasks = some t → t.pendingPolls = 0 →
      runReadyAux (tid :: rest) tasks cache
        = runReadyAux rest (eraseKey tid tasks)
            (cacheErase tid (cacheEnter tid cache)) ∧
      lookupKey tid (eraseKey tid tasks) = none ∧
      tid ∉ cacheErase tid (cacheEnter tid cache)) ∧
    (lookupKey tid tasks = none →
      runReadyAux (tid :: rest) tasks cache = runReadyAux rest tasks cache) ∧
    (lookupKey tid tasks = none → tid ∉ cache →
      lookupKey tid (runReadyAux q tasks cache).1 = none ∧
      tid ∉ (runReadyAux q tasks cache).2) := by
  refine ⟨fun h h0 => ?_, fun h => ?_, fun h h2 => ?_⟩
  · refine ⟨?_, lookupKey_eraseKey_self tid tasks, ?_⟩
    · simp [runReadyAux, h, poll_zero_ready h0]
    · rw [mem_cacheErase]
      rintro ⟨-, hne⟩
      exact hne rfl
  · simp [runReadyAux, h]
  · exact runReadyAux_absent tid q tasks cache h h2

/-- Witness for C5: a completing task's removal, and skipping of stale
identifiers. -/
theorem run_ready_idempotent_completion_w :
    (runReadyAux [0] [(0, Task.new 0 0)] []
        = runReadyAux [] (eraseKey 0 [(0, Task.new 0 0)])
            (cacheErase 0 (cacheEnter 0 []))) ∧
    runReadyAux [7] ([] : List (Nat × Task)) [] = runReadyAux [] [] [] ∧
    lookupKey 7 (runReadyAux [7, 7] [] []).1 = none ∧
    7 ∉ (runReadyAux [7, 7] [] []).2 := by
  refine ⟨?_, ?_, ?_, ?_⟩
  · exact ((run_ready_idempotent_completion 0 [] [] [(0, Task.new 0 0)] []
      (Task.new 0 0)).1 rfl rfl).1
  · exact (run_ready_idempotent_completion 7 [] [7, 7] [] []
      (Task.new 7 0)).2.1 rfl
  · exact ((run_ready_idempotent_completion 7 [] [7, 7] [] []
      (Task.new 7 0)).2.2 rfl (by decide)).1
  · exact ((run_ready_idempotent_completion 7 [] [7, 7] [] []
      (Task.new 7 0)).2.2 rfl (by decide)).2

/-- Claim C9: the Wake Handle cache invariant — an entry for a task
identifier exists in the waker cache exactly when that task is live and
currently suspended (its most recent resume returned `Pending`).  The
invariant holds for a fresh executor, is preserved by spawning a new task
(which has never been resumed), and is preserved by draining the ready queue
in `run_ready_tasks` (entries are created at the poll that suspends a task
and removed at the poll that completes it). -/
theorem waker_cache_invariant :
    cacheInv Executor.new.tasks Executor.new.waker_cache ∧
    (∀ (e : Executor) (i n : Nat) (e2 : Executor),
      Executor.spawn e (Task.new i n) = .ok e2 →
      cacheInv e.tasks e.waker_cache → cacheInv e2.tasks e2.waker_cache) ∧
    (∀ (q : List Nat) (tasks : List (Nat × Task)) (cache : List Nat),
      cacheInv tasks cache →
      cacheInv (runReadyAux q tasks cache).1 (runReadyAux q tasks cache).2) := by
  refine ⟨?_, ?_, fun q tasks cache h => runReadyAux_cacheInv q tasks cache h⟩
  · intro tid
    simp [Executor.new, lookupKey]
  · intro e i n e2 hok hinv
    unfold Executor.spawn at hok
    simp only [Task.new] at hok
    cases hl : lookupKey i e.tasks with
    | some u =>
      rw [hl] at hok
      exact Except.noConfusion hok
    | none =>
      rw [hl] at hok
      cases hq : queuePush QUEUE_SIZE e.task_queue i with
      | none =>
        rw [hq] at hok
        exact Except.noConfusion hok
      | some q2 =>
        rw [hq] at hok
        injection hok with he2
        subst he2
        intro tid
        by_cases hti : tid = i
        · subst hti
          have hcl : tid ∉ e.waker_cache := by
            intro hmem
            rcases (hinv tid).mp hmem with ⟨t, hlt, -⟩
            rw [hl] at hlt
            exact Option.noConfusion hlt
          simp [hcl, lookupKey_insertKey_self]
        · simpa [lookupKey_insertKey_ne _ _ hti] using hinv tid

/-- Witness for C9: a suspending task creates exactly its own cache entry. -/
theorem waker_cache_invariant_w :
    0 ∈ (runReadyAux [0] [(0, Task.new 0 2)] []).2 := by
  have hinv : cacheInv [(0, Task.new 0 2)] [] := by
    intro tid
    by_cases h : tid = 0 <;> simp [lookupKey, h, Task.new]
  exact ((waker_cache_invariant.2.2 [0] [(0, Task.new 0 2)] [] hinv) 0).mpr
    ⟨⟨0, 1, true⟩, by simp [runReadyAux, lookupKey, Task.poll, Task.new,
      cacheEnter, insertKey, eraseKey], rfl⟩

lemma some_succ_ne_zero (n : Nat) : (some (n + 1) : Option Nat) ≠ some 0 := by
  intro h
  injection h with h2
  omega

lemma wakeSignal_idle (x : Option (List Nat)) (rq : List Nat) :
    wakeSignal ⟨x, none, rq⟩ = some ⟨x, none, rq⟩ := rfl

lemma wakeSignal_registered (x : Option (List Nat)) (t : Nat) (rq : List Nat)
    (h : rq.length < QUEUE_SIZE) :
    wakeSignal ⟨x, some t, rq⟩ = some ⟨x, none, rq ++ [t]⟩ := by
  simp [wakeSignal, awWake, queuePush, h]

lemma irun_push_fires {c tid fuel : Nat} {wakeAt : Option Nat} {pc : PollPC}
    {s : SysState} {items items2 : List Nat}
    (hc : s.cell = some items)
    (hp : queuePush SCANCODE_QUEUE_CAPACITY items c = some items2) :
    irun c tid (fuel + 1) (some 0) wakeAt pc s
      = irun c tid fuel none wakeAt pc { s with cell := some items2 } := by
  simp [irun, hc, hp]

lemma irun_wake_fires {c tid fuel : Nat} {pushAt : Option Nat} {pc : PollPC}
    {s s2 : SysState}
    (h1 : pushAt ≠ some 0) (hw : wakeSignal s = some s2) :
    irun c tid (fuel + 1) pushAt (some 0) pc s
      = irun c tid fuel pushAt none pc s2 := by
  simp [irun, h1, hw]

lemma irun_consumer {c tid fuel : Nat} {a b a2 b2 : Option Nat}
    {pc pc2 : PollPC} {s s2 : SysState}
    (h1 : a ≠ some 0) (h2 : b ≠ some 0)
    (hstep : poll_next_step tid pc s = some (pc2, s2))
    (ha : a.map Nat.pred = a2) (hb : b.map Nat.pred = b2) :
    irun c tid (fuel + 1) a b pc s = irun c tid fuel a2 b2 pc2 s2 := by
  subst ha hb
  simp [irun, h1, h2, hstep]

lemma irun_flush_idle {c tid fuel : Nat} {r : Poll (Option Nat)} {s : SysState} :
    irun c tid (fuel + 1) none none (.done r) s = some (.done r, s) := by
  simp [irun, poll_next_step]

lemma irun_flush_wake_only {c tid fuel b : Nat} {r : Poll (Option Nat)}
    {s s2 : SysState} (hw : wakeSignal s = some s2) :
    irun c tid (fuel + 1) none (some (b + 1)) (.done r) s = some (.done r, s2) := by
  simp [irun, poll_next_step, hw]

lemma irun_flush_push_only {c tid fuel a : Nat} {r : Poll (Option Nat)}
    {s : SysState} {items items2 : List Nat}
    (hc : s.cell = some items)
    (hp : queuePush SCANCODE_QUEUE_CAPACITY items c = some items2) :
    irun c tid (fuel + 1) (some (a + 1)) none (.done r) s
      = some (.done r, { s with cell := some items2 }) := by
  simp [irun, poll_next_step, hc, hp]

lemma irun_flush_both {c tid fuel a b : Nat} {r : Poll (Option Nat)}
    {s : SysState} {items items2 : List Nat} {s3 : SysState}
    (hc : s.cell = some items)
    (hp : queuePush SCANCODE_QUEUE_CAPACITY items c = some items2)
    (hw : wakeSignal { s with cell := some items2 } = some s3) :
    irun c tid (fuel + 1) (some (a + 1)) (some (b + 1)) (.done r) s
      = some (.done r, s3) := by
  simp [irun, poll_next_step, hc, hp, hw]

lemma pollRace_pending (c tid k m : Nat) (rq : List Nat)
    (hrq : rq.length < QUEUE_SIZE) (hkm : k ≤ m) :
    pollRace (k + 3) (m + 3) c tid rq
      = some (.done .pending, ⟨some [c], none, rq ++ [tid]⟩) := by
  have e1 : pollRace (k + 3) (m + 3) c tid rq
      = irun c tid 7 (some (k + 2)) (some (m + 2)) .regPoint ⟨some [], none, rq⟩ :=
    irun_consumer (some_succ_ne_zero _) (some_succ_ne_zero _) rfl rfl rfl
  have e2 : irun c tid 7 (some (k + 2)) (some (m + 2)) .regPoint ⟨some [], none, rq⟩
      = irun c tid 6 (some (k + 1)) (some (m + 1)) .recheck ⟨some [], some tid, rq⟩ :=
    irun_consumer (some_succ_ne_zero _) (some_succ_ne_zero _) rfl rfl rfl
  have e3 : irun c tid 6 (some (k + 1)) (some (m + 1)) .recheck ⟨some [], some tid, rq⟩
      = irun c tid 5 (some k) (some m) (.done .pending) ⟨some [], some tid, rq⟩ :=
    irun_consumer (some_succ_ne_zero _) (some_succ_ne_zero _) rfl rfl rfl
  rw [e1, e2, e3]
  cases k with
  | zero =>
    have e4 : irun c tid 5 (some 0) (some m) (.done .pending) ⟨some [], some tid, rq⟩
        = irun c tid 4 none (some m) (.done .pending) ⟨some [c], some tid, rq⟩ :=
      irun_push_fires rfl rfl
    rw [e4]
    cases m with
    | zero =>
      have e5 : irun c tid 4 none (some 0) (.done .pending) ⟨some [c], some tid, rq⟩
          = irun c tid 3 none none (.done .pending) ⟨some [c], none, rq ++ [tid]⟩ :=
        irun_wake_fires (by simp) (wakeSignal_registered _ _ _ hrq)
      rw [e5]
      exact irun_flush_idle
    | succ m2 =>
      exact irun_flush_wake_only (wakeSignal_registered _ _ _ hrq)
  | succ k2 =>
    obtain ⟨m2, rfl⟩ : ∃ m2, m = m2 + 1 := ⟨m - 1, by omega⟩
    exact irun_flush_both rfl rfl (wakeSignal_registered _ _ _ hrq)

lemma pollRace_ready0 (c tid j : Nat) (rq : List Nat) :
    ∃ s2, pollRace 0 j c tid rq = some (.done (.ready (some c)), s2) := by
  have e1 : pollRace 0 j c tid rq
      = irun c tid 7 none (some j) .start ⟨some [c], none, rq⟩ :=
    irun_push_fires rfl rfl
  rw [e1]
  cases j with
  | zero =>
    have e2 : irun c tid 7 none (some 0) .start ⟨some [c], none, rq⟩
        = irun c tid 6 none none .start ⟨some [c], none, rq⟩ :=
      irun_wake_fires (by simp) (wakeSignal_idle _ _)
    have e3 : irun c tid 6 none none .start ⟨some [c], none, rq⟩
        = irun c tid 5 none none (.done (.ready (some c))) ⟨some [], none, rq⟩ :=
      irun_consumer (by simp) (by simp) rfl rfl rfl
    exact ⟨_, (e2.trans e3).trans irun_flush_idle⟩
  | succ j2 =>
    have e2 : irun c tid 7 none (some (j2 + 1)) .start ⟨some [c], none, rq⟩
        = irun c tid 6 none (some j2) (.done (.ready (some c))) ⟨some [], none, rq⟩ :=
      irun_consumer (by simp) (some_succ_ne_zero _) rfl rfl rfl
    rw [e2]
    cases j2 with
    | zero =>
      have e3 : irun c tid 6 none (some 0) (.done (.ready (some c))) ⟨some [], none, rq⟩
          = irun c tid 5 none none (.done (.ready (some c))) ⟨some [], none, rq⟩ :=
        irun_wake_fires (by simp) (wakeSignal_idle _ _)
      exact ⟨_, e3.trans irun_flush_idle⟩
    | succ j3 =>
      exact ⟨_, irun_flush_wake_only (wakeSignal_idle _ _)⟩

lemma pollRace_ready1 (c tid j : Nat) (rq : List Nat)
    (hrq : rq.length < QUEUE_SIZE) (hj : 1 ≤ j) :
    ∃ s2, pollRace 1 j c tid rq = some (.done (.ready (some c)), s2) := by
  obtain ⟨j2, rfl⟩ : ∃ j2, j = j2 + 1 := ⟨j - 1, by omega⟩
  have e1 : pollRace 1 (j2 + 1) c tid rq
      = irun c tid 7 (some 0) (some j2) .regPoint ⟨some [], none, rq⟩ :=
    irun_consumer (some_succ_ne_zero _) (some_succ_ne_zero _) rfl rfl rfl
  have e2 : irun c tid 7 (some 0) (some j2) .regPoint ⟨some [], none, rq⟩
      = irun c tid 6 none (some j2) .regPoint ⟨some [c], none, rq⟩ :=
    irun_push_fires rfl rfl
  rw [e1, e2]
  cases j2 with
  | zero =>
    have e3 : irun c tid 6 none (some 0) .regPoint ⟨some [c], none, rq⟩
        = irun c tid 5 none none .regPoint ⟨some [c], none, rq⟩ :=
      irun_wake_fires (by simp) (wakeSignal_idle _ _)
    have e4 : irun c tid 5 none none .regPoint ⟨some [c], none, rq⟩
        = irun c tid 4 none none .recheck ⟨some [c], some tid, rq⟩ :=
      irun_consumer (by simp) (by simp) rfl rfl rfl
    have e5 : irun c tid 4 none none .recheck ⟨some [c], some tid, rq⟩
        = irun c tid 3 none none (.takePoint c) ⟨some [], some tid, rq⟩ :=
      irun_consumer (by simp) (by simp) rfl rfl rfl
    have e6 : irun c tid 3 none none (.takePoint c) ⟨some [], some tid, rq⟩
        = irun c tid 2 none none (.done (.ready (some c))) ⟨some [], none, rq⟩ :=
      irun_consumer (by simp) (by simp) rfl rfl rfl
    exact ⟨_, (((e3.trans e4).trans e5).trans e6).trans irun_flush_idle⟩
  | succ j3 =>
    have e3 : irun c tid 6 none (some (j3 + 1)) .regPoint ⟨some [c], none, rq⟩
        = irun c tid 5 none (some j3) .recheck ⟨some [c], some tid, rq⟩ :=
      irun_consumer (by simp) (some_succ_ne_zero _) rfl rfl rfl
    rw [e3]
    cases j3 with
    | zero =>
      have e4 : irun c tid 5 none (some 0) .recheck ⟨some [c], some tid, rq⟩
          = irun c tid 4 none none .recheck ⟨some [c], none, rq ++ [tid]⟩ :=
        irun_wake_fires (by simp) (wakeSignal_registered _ _ _ hrq)
      have e5 : irun c tid 4 none none .recheck ⟨some [c], none, rq ++ [tid]⟩
          = irun c tid 3 none none (.takePoint c) ⟨some [], none, rq ++ [tid]⟩ :=
        irun_consumer (by simp) (by simp) rfl rfl rfl
      have e6 : irun c tid 3 none none (.takePoint c) ⟨some [], none, rq ++ [tid]⟩
          = irun c tid 2 none none (.done (.ready (some c))) ⟨some [], none, rq ++ [tid]⟩ :=
        irun_consumer (by simp) (by simp) rfl rfl rfl
      exact ⟨_, ((e4.trans e5).trans e6).trans irun_flush_idle⟩
    | succ j4 =>
      have e4 : irun c tid 5 none (some (j4 + 1)) .recheck ⟨some [c], some tid, rq⟩
          = irun c tid 4 none (some j4) (.takePoint c) ⟨some [], some tid, rq⟩ :=
        irun_consumer (by simp) (some_succ_ne_zero _) rfl rfl rfl
      rw [e4]
      cases j4 with
      | zero =>
        have e5 : irun c tid 4 none (some 0) (.takePoint c) ⟨some [], some tid, rq⟩
            = irun c tid 3 none none (.takePoint c) ⟨some [], none, rq ++ [tid]⟩ :=
          irun_wake_fires (by simp) (wakeSignal_registered _ _ _ hrq)
        have e6 : irun c tid 3 none none (.takePoint c) ⟨some [], none, rq ++ [tid]⟩
            = irun c tid 2 none none (.done (.ready (some c))) ⟨some [], none, rq ++ [tid]⟩ :=
          irun_consumer (by simp) (by simp) rfl rfl rfl
        exact ⟨_, (e5.trans e6).trans irun_flush_idle⟩
      | succ j5 =>
        have e5 : irun c tid 4 none (some (j5 + 1)) (.takePoint c) ⟨some [], some tid, rq⟩
            = irun c tid 3 none (some j5) (.done (.ready (some c))) ⟨some [], none, rq⟩ :=
          irun_consumer (by simp) (some_succ_ne_zero _) rfl rfl rfl
        rw [e5]
        cases j5 with
        | zero =>
          have e6 : irun c tid 3 none (some 0) (.done (.ready (some c))) ⟨some [], none, rq⟩
              = irun c tid 2 none none (.done (.ready (some c))) ⟨some [], none, rq⟩ :=
            irun_wake_fires (by simp) (wakeSignal_idle _ _)
          exact ⟨_, e6.trans irun_flush_idle⟩
        | succ j6 =>
          exact ⟨_, irun_flush_wake_only (wakeSignal_idle _ _)⟩

lemma pollRace_ready2 (c tid j : Nat) (rq : List Nat)
    (hrq : rq.length < QUEUE_SIZE) (hj : 2 ≤ j) :
    ∃ s2, pollRace 2 j c tid rq = some (.done (.ready (some c)), s2) := by
  obtain ⟨j2, rfl⟩ : ∃ j2, j = j2 + 2 := ⟨j - 2, by omega⟩
  have e1 : pollRace 2 (j2 + 2) c tid rq
      = irun c tid 7 (some 1) (some (j2 + 1)) .regPoint ⟨some [], none, rq⟩ :=
    irun_consumer (some_succ_ne_zero _) (some_succ_ne_zero _) rfl rfl rfl
  have e2 : irun c tid 7 (some 1) (some (j2 + 1)) .regPoint ⟨some [], none, rq⟩
      = irun c tid 6 (some 0) (some j2) .recheck ⟨some [], some tid, rq⟩ :=
    irun_consumer (some_succ_ne_zero _) (some_succ_ne_zero _) rfl rfl rfl
  have e3 : irun c tid 6 (some 0) (some j2) .recheck ⟨some [], some tid, rq⟩
      = irun c tid 5 none (some j2) .recheck ⟨some [c], some tid, rq⟩ :=
    irun_push_fires rfl rfl
  rw [e1, e2, e3]
  cases j2 with
  | zero =>
    have e4 : irun c tid 5 none (some 0) .recheck ⟨some [c], some tid, rq⟩
        = irun c tid 4 none none .recheck ⟨some [c], none, rq ++ [tid]⟩ :=
      irun_wake_fires (by simp) (wakeSignal_registered _ _ _ hrq)
    have e5 : irun c tid 4 none none .recheck ⟨some [c], none, rq ++ [tid]⟩
        = irun c tid 3 none none (.takePoint c) ⟨some [], none, rq ++ [tid]⟩ :=
      irun_consumer (by simp) (by simp) rfl rfl rfl
    have e6 : irun c tid 3 none none (.takePoint c) ⟨some [], none, rq ++ [tid]⟩
        = irun c tid 2 none none (.done (.ready (some c))) ⟨some [], none, rq ++ [tid]⟩ :=
      irun_consumer (by simp) (by simp) rfl rfl rfl
    exact ⟨_, ((e4.trans e5).trans e6).trans irun_flush_idle⟩
  | succ j3 =>
    have e4 : irun c tid 5 none (some (j3 + 1)) .recheck ⟨some [c], some tid, rq⟩
        = irun c tid 4 none (some j3) (.takePoint c) ⟨some [], some tid, rq⟩ :=
      irun_consumer (by simp) (some_succ_ne_zero _) rfl rfl rfl
    rw [e4]
    cases j3 with
    | zero =>
      have e5 : irun c tid 4 none (some 0) (.takePoint c) ⟨some [], some tid, rq⟩
          = irun c tid 3 none none (.takePoint c) ⟨some [], none, rq ++ [tid]⟩ :=
        irun_wake_fires (by simp) (wakeSignal_registered _ _ _ hrq)
      have e6 : irun c tid 3 none none (.takePoint c) ⟨some [], none, rq ++ [tid]⟩
          = irun c tid 2 none none (.done (.ready (some c))) ⟨some [], none, rq ++ [tid]⟩ :=
        irun_consumer (by simp) (by simp) rfl rfl rfl
      exact ⟨_, (e5.trans e6).trans irun_flush_idle⟩
    | succ j4 =>
      have e5 : irun c tid 4 none (some (j4 + 1)) (.takePoint c) ⟨some [], some tid, rq⟩
          = irun c tid 3 none (some j4) (.done (.ready (some c))) ⟨some [], none, rq⟩ :=
        irun_consumer (by simp) (some_succ_ne_zero _) rfl rfl rfl
      rw [e5]
      cases j4 with
      | zero =>
        have e6 : irun c tid 3 none (some 0) (.done (.ready (some c))) ⟨some [], none, rq⟩
            = irun c tid 2 none none (.done (.ready (some c))) ⟨some [], none, rq⟩ :=
          irun_wake_fires (by simp) (wakeSignal_idle _ _)
        exact ⟨_, e6.trans irun_flush_idle⟩
      | succ j5 =>
        exact ⟨_, irun_flush_wake_only (wakeSignal_idle _ _)⟩

/-- Claim C2: no lost wakeup.  One `poll_next` by task `tid` races against one
interrupt delivering scancode `c`, whose queue push fires after `i` consumer
steps and whose `WAKER.wake()` fires after `j ≥ i` consumer steps — every
interleaving of the push/notify pair relative to the registration and the
second check.  Whenever the poll ends suspended (`Pending`), the task's
identifier has been re-enqueued into the ready queue and the scancode is in
the queue, so the next `poll_next` resume returns that event immediately. -/
theorem no_lost_wakeup (c tid i j : Nat) (rq : List Nat) (pc : PollPC)
    (s : SysState) (hij : i ≤ j) (hrq : rq.length < QUEUE_SIZE)
    (hrun : pollRace i j c tid rq = some (pc, s))
    (hpend : pc = .done .pending) :
    s.cell = some [c] ∧ s.readyQueue = rq ++ [tid] ∧
    poll_next_step tid .start s
      = some (.done (.ready (some c)), { s with cell := some [] }) := by
  rcases Nat.lt_or_ge i 3 with hi | hi
  · interval_cases i
    · rcases pollRace_ready0 c tid j rq with ⟨s2, he⟩
      rw [he, hpend] at hrun
      simp at hrun
    · rcases pollRace_ready1 c tid j rq hrq hij with ⟨s2, he⟩
      rw [he, hpend] at hrun
      simp at hrun
    · rcases pollRace_ready2 c tid j rq hrq hij with ⟨s2, he⟩
      rw [he, hpend] at hrun
      simp at hrun
  · obtain ⟨k, rfl⟩ : ∃ k, i = k + 3 := ⟨i - 3, by omega⟩
    obtain ⟨m, rfl⟩ : ∃ m, j = m + 3 := ⟨j - 3, by omega⟩
    rw [pollRace_pending c tid k m rq hrq (by omega)] at hrun
    injection hrun with hpair
    obtain ⟨-, hs⟩ := Prod.mk.inj hpair
    subst hs
    exact ⟨rfl, rfl, rfl⟩

/-- Witness for C2: push and wake both after the second check, concrete
scancode `0x1E`. -/
theorem no_lost_wakeup_w :
    (⟨some [30], none, [9]⟩ : SysState).cell = some [30] ∧
    (⟨some [30], none, [9]⟩ : SysState).readyQueue = [] ++ [9] ∧
    poll_next_step 9 .start ⟨some [30], none, [9]⟩
      = some (.done (.ready (some 30)), ⟨some [], none, [9]⟩) :=
  no_lost_wakeup 30 9 3 3 [] (.done .pending) ⟨some [30], none, [9]⟩
    (by decide) (by decide) (by decide) rfl

end AsmOs
